import Mathlib

/-!
Verification of the PortfolioMgmtApp repository against its specification.

Python strings are modelled as Lean `String`; Python string operations
(`in`, `.upper()`, `.strip()`) are re-implemented over the character list
so that their semantics are fully explicit.  Python floats are modelled as
exact rationals (`ℚ`) for the arithmetic pipelines, with real numbers
(`ℝ`) and `Real.sqrt` where the code takes square roots.
-/

/-! ## Python string primitives -/

/-- Model of Python `pat in s` (substring containment) at the character-list
level: `startsWithL pat l` holds when `pat` is an initial segment of `l`. -/
def startsWithL : List Char → List Char → Bool
  | [], _ => true
  | _ :: _, [] => false
  | a :: as, b :: bs => a == b && startsWithL as bs

/-- Model of Python `pat in s`: `pat` occurs as a contiguous run somewhere
in `l`. -/
def hasInfixL (pat : List Char) : List Char → Bool
  | [] => startsWithL pat []
  | l@(_ :: t) => startsWithL pat l || hasInfixL pat t

/-- Python `pat in s` on strings. -/
def pyIn (pat s : String) : Bool := hasInfixL pat.data s.data

/-- Python `s.upper()` (ASCII scope, matching the tickers the app handles). -/
def pyUpper (s : String) : String := ⟨s.data.map Char.toUpper⟩

/-- Characters removed by Python `str.strip()`. -/
def wsChar (c : Char) : Bool := c.isWhitespace

/-- Python `s.strip()` on a character list: drop leading and trailing
whitespace. -/
def stripL (l : List Char) : List Char :=
  ((l.dropWhile wsChar).reverse.dropWhile wsChar).reverse

/-- Python `s.strip()` on strings. -/
def pyStrip (s : String) : String := ⟨stripL s.data⟩

/-! ## Currency mapper (`src/utils/currency_mapper.py`)

`get_currency_from_ticker` is translated clause by clause from the source:
every check is a Python `in` (substring) test on the uppercased, stripped
ticker, performed in the source's order. -/

def japaneseSuffixes : List String := [".T", ".JP", ".OS", ".TS"]

def europeanMappings : List (String × String) :=
  [(".AS", "EUR"), (".PA", "EUR"), (".DE", "EUR"), (".MI", "EUR"),
   (".MC", "EUR"), (".VI", "EUR"), (".BR", "EUR"), (".LS", "EUR"),
   (".HE", "EUR"), (".IC", "EUR")]

def ukSuffixes : List String := [".L", ".LON"]

def canadianSuffixes : List String := [".TO", ".V", ".CN"]

def chineseSuffixes : List String := [".SS", ".SZ"]

def indianSuffixes : List String := [".NS", ".BO"]

/-- Embedding of `get_currency_from_ticker` (currency_mapper.py lines 12-108). -/
def get_currency_from_ticker (ticker : String) : String :=
  let t := pyStrip (pyUpper ticker)
  if japaneseSuffixes.any (fun s => pyIn s t) then "JPY"
  else
    match europeanMappings.find? (fun p => pyIn p.1 t) with
    | some p => p.2
    | none =>
      if ukSuffixes.any (fun s => pyIn s t) then "GBP"
      else if pyIn ".SW" t || pyIn ".VX" t then "CHF"
      else if canadianSuffixes.any (fun s => pyIn s t) then "CAD"
      else if pyIn ".AX" t then "AUD"
      else if pyIn ".HK" t then "HKD"
      else if pyIn ".SI" t then "SGD"
      else if chineseSuffixes.any (fun s => pyIn s t) then "CNY"
      else if pyIn ".KS" t || pyIn ".KQ" t then "KRW"
      else if indianSuffixes.any (fun s => pyIn s t) then "INR"
      else if pyIn ".SA" t then "BRL"
      else if pyIn ".MX" t then "MXN"
      else if pyIn ".JO" t then "ZAR"
      else if pyIn ".ME" t then "RUB"
      else if pyIn ".IS" t then "TRY"
      else "USD"

/-! ### Spec-side table (for the refinement comparison of claim C1)

The spec describes an ordered pattern→currency table with default USD.
`currencySpecTable` lists the spec's patterns in the spec's order;
`currency_spec` resolves a ticker by first match.  Matching is substring
containment (the amended reading); the theorem below compares this
table-driven definition against the source translation. -/

def currencySpecTable : List (String × String) :=
  (japaneseSuffixes.map (fun s => (s, "JPY"))) ++
  europeanMappings ++
  (ukSuffixes.map (fun s => (s, "GBP"))) ++
  ([".SW", ".VX"].map (fun s => (s, "CHF"))) ++
  (canadianSuffixes.map (fun s => (s, "CAD"))) ++
  [(".AX", "AUD"), (".HK", "HKD"), (".SI", "SGD")] ++
  (chineseSuffixes.map (fun s => (s, "CNY"))) ++
  ([".KS", ".KQ"].map (fun s => (s, "KRW"))) ++
  (indianSuffixes.map (fun s => (s, "INR"))) ++
  [(".SA", "BRL"), (".MX", "MXN"), (".JO", "ZAR"), (".ME", "RUB"), (".IS", "TRY")]

/-- First-match lookup over a pattern→currency table, default "USD". -/
def lookupCur (tbl : List (String × String)) (t : String) : String :=
  ((tbl.find? (fun p => pyIn p.1 t)).map Prod.snd).getD "USD"

/-- Definition following the spec's words (as amended): resolve the currency
by the first table entry whose pattern occurs in the uppercased, stripped
ticker, defaulting to USD. -/
def currency_spec (ticker : String) : String :=
  lookupCur currencySpecTable (pyStrip (pyUpper ticker))

/-- Helper: lookup at a cons cell checks the head pattern first. -/
theorem lookupCur_cons (p : String × String) (l : List (String × String))
    (t : String) :
    lookupCur (p :: l) t = if pyIn p.1 t then p.2 else lookupCur l t := by
  by_cases h : pyIn p.1 t <;> simp [lookupCur, List.find?_cons, h]

/-- Helper: a block of patterns all mapping to the same currency behaves
like the source's grouped `any` test. -/
theorem lookupCur_group (pats : List String) (c : String)
    (rest : List (String × String)) (t : String) :
    lookupCur ((pats.map (fun s => (s, c))) ++ rest) t =
      if pats.any (fun s => pyIn s t) then c else lookupCur rest t := by
  induction pats with
  | nil => simp
  | cons p ps ih =>
    simp only [List.map_cons, List.cons_append, lookupCur_cons, List.any_cons]
    by_cases h : pyIn p t <;> simp [h, ih]

/-- Helper: lookup over an appended table first consults the left block. -/
theorem lookupCur_append (l r : List (String × String)) (t : String) :
    lookupCur (l ++ r) t =
      match l.find? (fun p => pyIn p.1 t) with
      | some p => p.2
      | none => lookupCur r t := by
  induction l with
  | nil => simp [lookupCur]
  | cons p ps ih =>
    simp only [List.cons_append, lookupCur_cons, List.find?_cons]
    by_cases h : pyIn p.1 t <;> simp [h, ih]

/-- Helper for C1: the source translation agrees everywhere with the
spec's ordered table under substring-containment matching. -/
theorem currency_table_agrees (t : String) :
    get_currency_from_ticker t = currency_spec t := by
  unfold get_currency_from_ticker currency_spec
  set s := pyStrip (pyUpper t) with hs
  by_cases h1 : pyIn ".T" s
  · simp_all [currencySpecTable, lookupCur_cons, List.find?_cons, japaneseSuffixes, europeanMappings, ukSuffixes, canadianSuffixes, chineseSuffixes, indianSuffixes]
  by_cases h2 : pyIn ".JP" s
  · simp_all [currencySpecTable, lookupCur_cons, List.find?_cons, japaneseSuffixes, europeanMappings, ukSuffixes, canadianSuffixes, chineseSuffixes, indianSuffixes]
  by_cases h3 : pyIn ".OS" s
  · simp_all [currencySpecTable, lookupCur_cons, List.find?_cons, japaneseSuffixes, europeanMappings, ukSuffixes, canadianSuffixes, chineseSuffixes, indianSuffixes]
  by_cases h4 : pyIn ".TS" s
  · simp_all [currencySpecTable, lookupCur_cons, List.find?_cons, japaneseSuffixes, europeanMappings, ukSuffixes, canadianSuffixes, chineseSuffixes, indianSuffixes]
  by_cases h5 : pyIn ".AS" s
  · simp_all [currencySpecTable, lookupCur_cons, List.find?_cons, japaneseSuffixes, europeanMappings, ukSuffixes, canadianSuffixes, chineseSuffixes, indianSuffixes]
  by_cases h6 : pyIn ".PA" s
  · simp_all [currencySpecTable, lookupCur_cons, List.find?_cons, japaneseSuffixes, europeanMappings, ukSuffixes, canadianSuffixes, chineseSuffixes, indianSuffixes]
  by_cases h7 : pyIn ".DE" s
  · simp_all [currencySpecTable, lookupCur_cons, List.find?_cons, japaneseSuffixes, europeanMappings, ukSuffixes, canadianSuffixes, chineseSuffixes, indianSuffixes]
  by_cases h8 : pyIn ".MI" s
  · simp_all [currencySpecTable, lookupCur_cons, List.find?_cons, japaneseSuffixes, europeanMappings, ukSuffixes, canadianSuffixes, chineseSuffixes, indianSuffixes]
  by_cases h9 : pyIn ".MC" s
  · simp_all [currencySpecTable, lookupCur_cons, List.find?_cons, japaneseSuffixes, europeanMappings, ukSuffixes, canadianSuffixes, chineseSuffixes, indianSuffixes]
  by_cases h10 : pyIn ".VI" s
  · simp_all [currencySpecTable, lookupCur_cons, List.find?_cons, japaneseSuffixes, europeanMappings, ukSuffixes, canadianSuffixes, chineseSuffixes, indianSuffixes]
  by_cases h11 : pyIn ".BR" s
  · simp_all [currencySpecTable, lookupCur_cons, List.find?_cons, japaneseSuffixes, europeanMappings, ukSuffixes, canadianSuffixes, chineseSuffixes, indianSuffixes]
  by_cases h12 : pyIn ".LS" s
  · simp_all [currencySpecTable, lookupCur_cons, List.find?_cons, japaneseSuffixes, europeanMappings, ukSuffixes, canadianSuffixes, chineseSuffixes, indianSuffixes]
  by_cases h13 : pyIn ".HE" s
  · simp_all [currencySpecTable, lookupCur_cons, List.find?_cons, japaneseSuffixes, europeanMappings, ukSuffixes, canadianSuffixes, chineseSuffixes, indianSuffixes]
  by_cases h14 : pyIn ".IC" s
  · simp_all [currencySpecTable, lookupCur_cons, List.find?_cons, japaneseSuffixes, europeanMappings, ukSuffixes, canadianSuffixes, chineseSuffixes, indianSuffixes]
  by_cases h15 : pyIn ".L" s
  · simp_all [currencySpecTable, lookupCur_cons, List.find?_cons, japaneseSuffixes, europeanMappings, ukSuffixes, canadianSuffixes, chineseSuffixes, indianSuffixes]
  by_cases h16 : pyIn ".LON" s
  · simp_all [currencySpecTable, lookupCur_cons, List.find?_cons, japaneseSuffixes, europeanMappings, ukSuffixes, canadianSuffixes, chineseSuffixes, indianSuffixes]
  by_cases h17 : pyIn ".SW" s
  · simp_all [currencySpecTable, lookupCur_cons, List.find?_cons, japaneseSuffixes, europeanMappings, ukSuffixes, canadianSuffixes, chineseSuffixes, indianSuffixes]
  by_cases h18 : pyIn ".VX" s
  · simp_all [currencySpecTable, lookupCur_cons, List.find?_cons, japaneseSuffixes, europeanMappings, ukSuffixes, canadianSuffixes, chineseSuffixes, indianSuffixes]
  by_cases h19 : pyIn ".TO" s
  · simp_all [currencySpecTable, lookupCur_cons, List.find?_cons, japaneseSuffixes, europeanMappings, ukSuffixes, canadianSuffixes, chineseSuffixes, indianSuffixes]
  by_cases h20 : pyIn ".V" s
  · simp_all [currencySpecTable, lookupCur_cons, List.find?_cons, japaneseSuffixes, europeanMappings, ukSuffixes, canadianSuffixes, chineseSuffixes, indianSuffixes]
  by_cases h21 : pyIn ".CN" s
  · simp_all [currencySpecTable, lookupCur_cons, List.find?_cons, japaneseSuffixes, europeanMappings, ukSuffixes, canadianSuffixes, chineseSuffixes, indianSuffixes]
  by_cases h22 : pyIn ".AX" s
  · simp_all [currencySpecTable, lookupCur_cons, List.find?_cons, japaneseSuffixes, europeanMappings, ukSuffixes, canadianSuffixes, chineseSuffixes, indianSuffixes]
  by_cases h23 : pyIn ".HK" s
  · simp_all [currencySpecTable, lookupCur_cons, List.find?_cons, japaneseSuffixes, europeanMappings, ukSuffixes, canadianSuffixes, chineseSuffixes, indianSuffixes]
  by_cases h24 : pyIn ".SI" s
  · simp_all [currencySpecTable, lookupCur_cons, List.find?_cons, japaneseSuffixes, europeanMappings, ukSuffixes, canadianSuffixes, chineseSuffixes, indianSuffixes]
  by_cases h25 : pyIn ".SS" s
  · simp_all [currencySpecTable, lookupCur_cons, List.find?_cons, japaneseSuffixes, europeanMappings, ukSuffixes, canadianSuffixes, chineseSuffixes, indianSuffixes]
  by_cases h26 : pyIn ".SZ" s
  · simp_all [currencySpecTable, lookupCur_cons, List.find?_cons, japaneseSuffixes, europeanMappings, ukSuffixes, canadianSuffixes, chineseSuffixes, indianSuffixes]
  by_cases h27 : pyIn ".KS" s
  · simp_all [currencySpecTable, lookupCur_cons, List.find?_cons, japaneseSuffixes, europeanMappings, ukSuffixes, canadianSuffixes, chineseSuffixes, indianSuffixes]
  by_cases h28 : pyIn ".KQ" s
  · simp_all [currencySpecTable, lookupCur_cons, List.find?_cons, japaneseSuffixes, europeanMappings, ukSuffixes, canadianSuffixes, chineseSuffixes, indianSuffixes]
  by_cases h29 : pyIn ".NS" s
  · simp_all [currencySpecTable, lookupCur_cons, List.find?_cons, japaneseSuffixes, europeanMappings, ukSuffixes, canadianSuffixes, chineseSuffixes, indianSuffixes]
  by_cases h30 : pyIn ".BO" s
  · simp_all [currencySpecTable, lookupCur_cons, List.find?_cons, japaneseSuffixes, europeanMappings, ukSuffixes, canadianSuffixes, chineseSuffixes, indianSuffixes]
  by_cases h31 : pyIn ".SA" s
  · simp_all [currencySpecTable, lookupCur_cons, List.find?_cons, japaneseSuffixes, europeanMappings, ukSuffixes, canadianSuffixes, chineseSuffixes, indianSuffixes]
  by_cases h32 : pyIn ".MX" s
  · simp_all [currencySpecTable, lookupCur_cons, List.find?_cons, japaneseSuffixes, europeanMappings, ukSuffixes, canadianSuffixes, chineseSuffixes, indianSuffixes]
  by_cases h33 : pyIn ".JO" s
  · simp_all [currencySpecTable, lookupCur_cons, List.find?_cons, japaneseSuffixes, europeanMappings, ukSuffixes, canadianSuffixes, chineseSuffixes, indianSuffixes]
  by_cases h34 : pyIn ".ME" s
  · simp_all [currencySpecTable, lookupCur_cons, List.find?_cons, japaneseSuffixes, europeanMappings, ukSuffixes, canadianSuffixes, chineseSuffixes, indianSuffixes]
  by_cases h35 : pyIn ".IS" s
  · simp_all [currencySpecTable, lookupCur_cons, List.find?_cons, japaneseSuffixes, europeanMappings, ukSuffixes, canadianSuffixes, chineseSuffixes, indianSuffixes]
  simp_all [currencySpecTable, lookupCur, lookupCur_cons, List.find?_cons, japaneseSuffixes, europeanMappings, ukSuffixes, canadianSuffixes, chineseSuffixes, indianSuffixes]

/-- C1 counterexample: the claim assigns CAD to tickers with suffix `.TO`,
but the code, which tests substring containment in order, finds `.T` inside
`RY.TO` first and returns JPY. -/
theorem C1_counterexample_dot_TO :
    get_currency_from_ticker "RY.TO" = "JPY" ∧
    get_currency_from_ticker "RY.TO" ≠ "CAD" := by
  constructor <;> decide

/-- C1 (amended): `get_currency_from_ticker` resolves the currency by the
spec's ordered pattern table with SUBSTRING-containment matching (not true
suffix matching) on the uppercased, stripped ticker, defaulting to USD; in
particular a ticker containing `.T` anywhere — including Toronto's `.TO` —
maps to JPY, and the four quoted examples hold as stated. -/
theorem C1_currency_mapper_table :
    (∀ t : String, get_currency_from_ticker t = currency_spec t) ∧
    get_currency_from_ticker "7203.T" = "JPY" ∧
    get_currency_from_ticker "AAPL" = "USD" ∧
    get_currency_from_ticker "ASML.AS" = "EUR" ∧
    get_currency_from_ticker "HSBA.L" = "GBP" := by
  refine ⟨currency_table_agrees, ?_, ?_, ?_, ?_⟩ <;> decide

/-! ## P&L calculator (`src/modules/pnl_calculator.py`)

Python floats are modelled as exact rationals.  The arithmetic in
`calculate_pnl` cannot raise in this model (rational division is total,
with the same guard the code uses before dividing), matching the
"without raising" part of the claims. -/

structure PnlResult where
  ticker : String
  shares : ℚ
  avg_cost_jpy : ℚ
  current_price_local : ℚ
  current_price_jpy : ℚ
  exchange_rate : ℚ
  current_value_jpy : ℚ
  cost_basis_jpy : ℚ
  pnl_amount : ℚ
  pnl_percentage : ℚ
deriving DecidableEq

/-- Embedding of `calculate_pnl` (pnl_calculator.py lines 14-79). -/
def calculate_pnl (ticker : String) (shares avg_cost_jpy current_price_local : ℚ)
    (exchange_rate : ℚ) : PnlResult :=
  let current_price_jpy := current_price_local * exchange_rate
  let current_value_jpy := current_price_jpy * shares
  let cost_basis_jpy := avg_cost_jpy * shares
  let pnl_amount := current_value_jpy - cost_basis_jpy
  let pnl_percentage :=
    if 0 < cost_basis_jpy then pnl_amount / cost_basis_jpy * 100 else 0
  { ticker := ticker, shares := shares, avg_cost_jpy := avg_cost_jpy,
    current_price_local := current_price_local,
    current_price_jpy := current_price_jpy, exchange_rate := exchange_rate,
    current_value_jpy := current_value_jpy, cost_basis_jpy := cost_basis_jpy,
    pnl_amount := pnl_amount, pnl_percentage := pnl_percentage }

/-- C2: `calculate_pnl` computes the five derived quantities by the spec's
formulas (percentage guarded on positive cost basis), reproduces the quoted
AAPL example exactly, and on a zero local price with positive shares and
cost returns pnl_amount = −costBasis and pnl_percentage = −100. -/
theorem C2_calculate_pnl_formulas :
    (∀ (tk : String) (sh av pl fx : ℚ),
      (calculate_pnl tk sh av pl fx).current_price_jpy = pl * fx ∧
      (calculate_pnl tk sh av pl fx).current_value_jpy = pl * fx * sh ∧
      (calculate_pnl tk sh av pl fx).cost_basis_jpy = av * sh ∧
      (calculate_pnl tk sh av pl fx).pnl_amount = pl * fx * sh - av * sh ∧
      (calculate_pnl tk sh av pl fx).pnl_percentage =
        (if 0 < av * sh then (pl * fx * sh - av * sh) / (av * sh) * 100 else 0)) ∧
    (calculate_pnl "AAPL" 100 15000 200 150 =
      { ticker := "AAPL", shares := 100, avg_cost_jpy := 15000,
        current_price_local := 200, current_price_jpy := 30000,
        exchange_rate := 150, current_value_jpy := 3000000,
        cost_basis_jpy := 1500000, pnl_amount := 1500000,
        pnl_percentage := 100 }) ∧
    (∀ (tk : String) (sh av fx : ℚ), 0 < sh → 0 < av →
      (calculate_pnl tk sh av 0 fx).pnl_amount = -(av * sh) ∧
      (calculate_pnl tk sh av 0 fx).pnl_percentage = -100) := by
  refine ⟨?_, by simp only [calculate_pnl, PnlResult.mk.injEq]; norm_num, ?_⟩
  · intro tk sh av pl fx
    refine ⟨rfl, rfl, rfl, rfl, rfl⟩
  · intro tk sh av fx hsh hav
    have hcb : 0 < av * sh := mul_pos hav hsh
    constructor
    · show (0 : ℚ) * fx * sh - av * sh = -(av * sh)
      ring
    · show (if 0 < av * sh then ((0 : ℚ) * fx * sh - av * sh) / (av * sh) * 100 else 0) = -100
      rw [if_pos hcb]
      field_simp

/-- C2 witness: the zero-price clause instantiated at shares = 2,
average cost = 3, FX rate = 5. -/
theorem C2_calculate_pnl_witness :
    (calculate_pnl "X" 2 3 0 5).pnl_amount = -(3 * 2) ∧
    (calculate_pnl "X" 2 3 0 5).pnl_percentage = -100 :=
  C2_calculate_pnl_formulas.2.2 "X" 2 3 5 (by norm_num) (by norm_num)

/-! ## Dictionary primitives

Python dictionaries are modelled as association lists with unique keys;
`dict.get` is first-match lookup. -/

/-- Python `d.get(k)` returning `None` when absent. -/
def dictGetOpt {α : Type} (m : List (String × α)) (k : String) : Option α :=
  (m.find? (fun p => p.1 == k)).map Prod.snd

/-- Python `d.get(k, default)`. -/
def dictGetD {α : Type} (m : List (String × α)) (k : String) (d : α) : α :=
  (dictGetOpt m k).getD d

/-! ## Data adapter (`src/modules/data_adapter.py`)

The data bundle is the dictionary assembled by the Data Manager; the
fields the adapter reads are modelled, with historical prices and company
info kept abstract (the method under test never inspects their shape). -/

structure DataBundle where
  current_prices : List (String × ℚ)
  historical_prices : List (String × List ℚ)
  company_info : List (String × String)
  exchange_rates : List (String × ℚ)
  currency_mapping : List (String × String)

/-- Embedding of `DataAdapter.has_sufficient_data` (data_adapter.py
lines 234-240): `current_prices.get(ticker, 0) > 0`. -/
def has_sufficient_data (b : DataBundle) (ticker : String) : Bool :=
  decide (0 < dictGetD b.current_prices ticker 0)

/-- C9: `has_sufficient_data` is true exactly when the bundle's
current-price map holds a strictly positive price for the ticker, and it
is unaffected by the historical-price and company-info sections of the
bundle. -/
theorem C9_has_sufficient_data :
    (∀ (b : DataBundle) (t : String),
      has_sufficient_data b t = true ↔
        ∃ p : ℚ, dictGetOpt b.current_prices t = some p ∧ 0 < p) ∧
    (∀ (b : DataBundle) (t : String) (hist : List (String × List ℚ))
        (ci : List (String × String)),
      has_sufficient_data
        { b with historical_prices := hist, company_info := ci } t =
        has_sufficient_data b t) := by
  constructor
  · intro b t
    unfold has_sufficient_data dictGetD
    cases hfind : dictGetOpt b.current_prices t with
    | none => simp [hfind]
    | some p => simp [hfind]
  · intro b t hist ci
    rfl

/-! ## FX-rate resolution in the P&L calculator
(`src/modules/pnl_calculator.py` lines 82-176) -/

/-- The currency→pair-symbol table inside `get_exchange_rate_for_currency`. -/
def rate_mapping : List (String × String) :=
  [("USD", "USDJPY=X"), ("EUR", "EURJPY=X"), ("GBP", "GBPJPY=X"),
   ("AUD", "AUDJPY=X"), ("CAD", "CADJPY=X"), ("CHF", "CHFJPY=X")]

/-- The static fallback-rate table inside `get_exchange_rate_for_currency`. -/
def pnl_fallback_rates : List (String × ℚ) :=
  [("USD", 150), ("EUR", 160), ("GBP", 180), ("AUD", 100), ("CAD", 110),
   ("CHF", 165), ("HKD", 19), ("SGD", 110), ("CNY", 21), ("KRW", 11/100)]

/-- Embedding of `get_exchange_rate_for_currency` (pnl_calculator.py
lines 135-176). -/
def get_exchange_rate_for_currency (currency : String)
    (exchange_rates : List (String × ℚ)) : ℚ :=
  if currency = "JPY" then 1
  else
    match dictGetOpt rate_mapping currency with
    | some sym =>
      match dictGetOpt exchange_rates sym with
      | some r => r
      | none => dictGetD pnl_fallback_rates currency 1
    | none => dictGetD pnl_fallback_rates currency 1

/-- One portfolio row (Ticker, Shares, AvgCostJPY). -/
structure HoldingRow where
  ticker : String
  shares : ℚ
  avgCostJPY : ℚ

/-- Embedding of `calculate_portfolio_pnl` (pnl_calculator.py lines
82-132): per row, price defaults to 0, currency defaults to "USD", and
the FX rate comes from `get_exchange_rate_for_currency`; the row result
is the `calculate_pnl` record together with the resolved currency. -/
def calculate_portfolio_pnl (rows : List HoldingRow)
    (current_prices : List (String × ℚ)) (exchange_rates : List (String × ℚ))
    (currency_mapping : List (String × String)) : List (PnlResult × String) :=
  rows.map (fun row =>
    let price := dictGetD current_prices row.ticker 0
    let currency := dictGetD currency_mapping row.ticker "USD"
    let rate := get_exchange_rate_for_currency currency exchange_rates
    (calculate_pnl row.ticker row.shares row.avgCostJPY price rate, currency))

/-- C10: the FX resolver returns exactly 1 for JPY; for any currency in
neither its pair-symbol table nor its static fallback table it returns 1
regardless of the supplied rates map; the currency mapper does produce
INR, BRL, MXN, ZAR, RUB and TRY; and `calculate_portfolio_pnl` therefore
prices a position in such a currency as if the local price were already
JPY (current_price_jpy = local price). -/
theorem C10_exchange_rate_fallback_one :
    (∀ rates : List (String × ℚ),
      get_exchange_rate_for_currency "JPY" rates = 1) ∧
    (∀ (cur : String) (rates : List (String × ℚ)),
      dictGetOpt rate_mapping cur = none →
      dictGetOpt pnl_fallback_rates cur = none →
      get_exchange_rate_for_currency cur rates = 1) ∧
    (∀ rates : List (String × ℚ),
      get_exchange_rate_for_currency "INR" rates = 1 ∧
      get_exchange_rate_for_currency "BRL" rates = 1 ∧
      get_exchange_rate_for_currency "MXN" rates = 1 ∧
      get_exchange_rate_for_currency "ZAR" rates = 1 ∧
      get_exchange_rate_for_currency "RUB" rates = 1 ∧
      get_exchange_rate_for_currency "TRY" rates = 1) ∧
    (get_currency_from_ticker "INFY.NS" = "INR" ∧
     get_currency_from_ticker "PETR4.SA" = "BRL" ∧
     get_currency_from_ticker "AMXB.MX" = "MXN" ∧
     get_currency_from_ticker "NPN.JO" = "ZAR" ∧
     get_currency_from_ticker "GAZP.ME" = "RUB" ∧
     get_currency_from_ticker "THYAO.IS" = "TRY") ∧
    (∀ (row : HoldingRow) (cp er : List (String × ℚ))
        (cm : List (String × String)),
      dictGetD cm row.ticker "USD" ∈
        (["INR", "BRL", "MXN", "ZAR", "RUB", "TRY"] : List String) →
      ∀ r ∈ calculate_portfolio_pnl [row] cp er cm,
        r.1.current_price_jpy = dictGetD cp row.ticker 0) := by
  refine ⟨fun rates => rfl, ?_, ?_, by decide, ?_⟩
  · intro cur rates h1 h2
    unfold get_exchange_rate_for_currency
    by_cases hj : cur = "JPY"
    · simp [hj]
    · simp [hj, h1, dictGetD, h2]
  · intro rates
    refine ⟨rfl, rfl, rfl, rfl, rfl, rfl⟩
  · intro row cp er cm hmem r hr
    have hrate : get_exchange_rate_for_currency (dictGetD cm row.ticker "USD") er = 1 := by
      simp only [List.mem_cons, List.not_mem_nil, or_false] at hmem
      rcases hmem with h | h | h | h | h | h <;> rw [h] <;> rfl
    simp only [calculate_portfolio_pnl, List.map_cons, List.map_nil,
      List.mem_cons, List.not_mem_nil, or_false] at hr
    subst hr
    show dictGetD cp row.ticker 0 * get_exchange_rate_for_currency _ er = _
    rw [hrate, mul_one]

/-- C10 witness: the absent-currency clause instantiated at currency
"INR" with a rates map that even carries a (never-consulted) INR entry. -/
theorem C10_exchange_rate_witness :
    get_exchange_rate_for_currency "INR" [("INRJPY=X", (5 : ℚ))] = 1 :=
  C10_exchange_rate_fallback_one.2.1 "INR" [("INRJPY=X", (5 : ℚ))]
    (by decide) (by decide)

/-! ## Character-level lemmas for the cleaning pipeline -/

/-- A character is a lowercase ASCII letter. -/
def lowerAscii (c : Char) : Bool := decide (97 ≤ c.toNat ∧ c.toNat ≤ 122)

theorem char_eq_iff_toNat (c d : Char) : c = d ↔ c.toNat = d.toNat := by
  constructor
  · intro h; rw [h]
  · intro h
    rw [← Char.ofNat_toNat c, h, Char.ofNat_toNat]

theorem wsChar_iff (c : Char) :
    wsChar c = true ↔ (c.toNat = 32 ∨ c.toNat = 9 ∨ c.toNat = 13 ∨ c.toNat = 10) := by
  unfold wsChar
  simp [Char.isWhitespace, char_eq_iff_toNat]
  tauto

theorem toNat_charOfNat (n : Nat) (h : n < 0xd800) : (Char.ofNat n).toNat = n := by
  have hv : n.isValidChar := Or.inl h
  have hlt : n < UInt32.size := by
    have : (0xd800 : Nat) < UInt32.size := by norm_num [UInt32.size]
    omega
  simp [Char.ofNat, Char.toNat, hv, Char.ofNatAux, UInt32.ofNat', UInt32.toNat,
    BitVec.toNat_ofNat, Nat.mod_eq_of_lt hlt]

theorem wsChar_toUpper (c : Char) : wsChar (Char.toUpper c) = wsChar c := by
  unfold Char.toUpper
  by_cases h : 97 ≤ c.toNat ∧ c.toNat ≤ 122
  · simp only [if_pos h]
    have h1 : (Char.ofNat (c.toNat - 32)).toNat = c.toNat - 32 :=
      toNat_charOfNat _ (by omega)
    have h2 : wsChar (Char.ofNat (c.toNat - 32)) = false := by
      rw [← Bool.not_eq_true, wsChar_iff, h1]
      omega
    have h3 : wsChar c = false := by
      rw [← Bool.not_eq_true, wsChar_iff]
      omega
    rw [h2, h3]
  · simp only [if_neg h]

theorem toUpper_not_lowerAscii (c : Char) : lowerAscii (Char.toUpper c) = false := by
  unfold Char.toUpper lowerAscii
  by_cases h : 97 ≤ c.toNat ∧ c.toNat ≤ 122
  · have h1 : (Char.ofNat (c.toNat - 32)).toNat = c.toNat - 32 :=
      toNat_charOfNat _ (by omega)
    simp only [if_pos h, h1, decide_eq_false_iff_not]
    omega
  · simp only [if_neg h, decide_eq_false_iff_not]
    omega

theorem dropWhile_stripL (l : List Char) :
    (stripL l).dropWhile wsChar = stripL l := by
  have hpre := List.rdropWhile_prefix wsChar (l.dropWhile wsChar)
  obtain ⟨t, ht⟩ := hpre
  cases hs : stripL l with
  | nil => rfl
  | cons b bs =>
    have hst : stripL l = List.rdropWhile wsChar (l.dropWhile wsChar) := rfl
    rw [← hst, hs] at ht
    have hda : l.dropWhile wsChar = b :: (bs ++ t) := by rw [← ht]; simp
    have hh := List.head?_dropWhile_not wsChar l
    rw [hda] at hh
    simp only [List.head?_cons] at hh
    simp [List.dropWhile_cons, hh]

theorem stripL_map_toUpper (l : List Char) :
    stripL (l.map Char.toUpper) = (stripL l).map Char.toUpper := by
  have hp : (wsChar ∘ Char.toUpper) = wsChar := funext wsChar_toUpper
  unfold stripL
  rw [List.dropWhile_map, hp, ← List.map_reverse, List.dropWhile_map, hp,
    ← List.map_reverse]

theorem stripL_stripL (l : List Char) : stripL (stripL l) = stripL l := by
  show List.rdropWhile wsChar ((stripL l).dropWhile wsChar) = stripL l
  rw [dropWhile_stripL]
  show List.rdropWhile wsChar (List.rdropWhile wsChar (l.dropWhile wsChar)) = _
  rw [List.rdropWhile_idempotent]
  rfl

/-! ## Data loader (`src/modules/data_loader.py`)

A holdings table is modelled with its three business columns.  Numeric
cells are `Option ℚ` (`none` = NaN); a raw cell before coercion can also
be a non-numeric value (`bad`), which `pd.to_numeric(errors="coerce")`
turns into NaN.  Column-presence flags mirror the `col in df.columns`
checks; with cells already numeric-or-missing, the numeric-dtype branch
of the validator is always on its numeric side. -/

structure PRow where
  ticker : String
  shares : Option ℚ
  avgCost : Option ℚ

structure PTable where
  hasTicker : Bool
  hasShares : Bool
  hasAvg : Bool
  rows : List PRow

inductive ValidationError where
  | missingColumns (cols : List String)
  | emptyData
  | nonPositive (col : String)
  | duplicateTickers (ts : List String)
  | nullColumns (cols : List String)
deriving DecidableEq

/-- The required-column check of `validate_portfolio_data`. -/
def missingColsOf (tb : PTable) : List String :=
  (if tb.hasTicker then [] else ["Ticker"]) ++
  (if tb.hasShares then [] else ["Shares"]) ++
  (if tb.hasAvg then [] else ["AvgCostJPY"])

/-- Python `(df[col] <= 0).any()`: NaN compares false, so only actual
numbers count. -/
def anyNonPos (f : PRow → Option ℚ) (rows : List PRow) : Bool :=
  rows.any (fun r => ((f r).map (fun q => decide (q ≤ 0))).getD false)

/-- Pandas `duplicated()`: the occurrences after the first of each ticker. -/
def dupsAfterFirst (seen : List String) : List String → List String
  | [] => []
  | t :: ts =>
    if t ∈ seen then t :: dupsAfterFirst seen ts
    else dupsAfterFirst (t :: seen) ts

/-- The ticker values pandas marks as duplicated. -/
def dupsOf (tb : PTable) : List String :=
  dupsAfterFirst [] (tb.rows.map (fun r => r.ticker))

/-- Columns containing a null value (the Ticker column, holding plain
strings after ingestion, is never null in this model). -/
def nullColsOf (tb : PTable) : List String :=
  (if tb.hasShares && tb.rows.any (fun r => r.shares.isNone) then ["Shares"] else []) ++
  (if tb.hasAvg && tb.rows.any (fun r => r.avgCost.isNone) then ["AvgCostJPY"] else [])

/-- Embedding of `validate_portfolio_data` (data_loader.py lines 49-98):
collects the missing-column, empty-data (early return), non-positive,
duplicate-ticker and null errors in the source's order; ok iff no error. -/
def validate_portfolio_data (tb : PTable) : Bool × List ValidationError :=
  let e0 : List ValidationError :=
    if (missingColsOf tb).isEmpty then []
    else [ValidationError.missingColumns (missingColsOf tb)]
  if tb.rows.isEmpty then (false, e0 ++ [ValidationError.emptyData])
  else
    let es := e0
      ++ (if tb.hasShares && anyNonPos PRow.shares tb.rows then
            [ValidationError.nonPositive "Shares"] else [])
      ++ (if tb.hasAvg && anyNonPos PRow.avgCost tb.rows then
            [ValidationError.nonPositive "AvgCostJPY"] else [])
      ++ (if tb.hasTicker && !(dupsOf tb).isEmpty then
            [ValidationError.duplicateTickers (dupsOf tb)] else [])
      ++ (if !(nullColsOf tb).isEmpty then
            [ValidationError.nullColumns (nullColsOf tb)] else [])
    (es.isEmpty, es)

theorem dupsAfterFirst_nil_iff (l : List String) (seen : List String)
    (h : dupsAfterFirst seen l = []) :
    l.Nodup ∧ ∀ t ∈ l, t ∉ seen := by
  induction l generalizing seen with
  | nil => simp
  | cons t ts ih =>
    unfold dupsAfterFirst at h
    by_cases hm : t ∈ seen
    · simp [hm] at h
    · rw [if_neg hm] at h
      obtain ⟨h1, h2⟩ := ih (t :: seen) h
      refine ⟨List.nodup_cons.mpr ⟨?_, h1⟩, ?_⟩
      · intro hmem
        exact (h2 t hmem) (List.mem_cons_self t seen)
      · intro x hx
        rcases List.mem_cons.mp hx with rfl | hx2
        · exact hm
        · intro hxs
          exact (h2 x hx2) (List.mem_cons_of_mem _ hxs)

theorem anyNonPos_of_witness (f : PRow → Option ℚ) (rows : List PRow)
    (h : ∃ r ∈ rows, ∃ q, f r = some q ∧ q ≤ 0) :
    anyNonPos f rows = true := by
  obtain ⟨r, hr, q, hq, hle⟩ := h
  unfold anyNonPos
  rw [List.any_eq_true]
  exact ⟨r, hr, by simp [hq, hle]⟩

/-- C5: `validate_portfolio_data` rejects (ok = false, with the matching
error collected in the list) an empty table, any non-positive Shares or
AvgCostJPY value, and any duplicated ticker — and all such violations
present in a table appear together in the returned list. -/
theorem C5_validate_portfolio_data (tb : PTable) :
    (tb.rows = [] →
      (validate_portfolio_data tb).1 = false ∧
      ValidationError.emptyData ∈ (validate_portfolio_data tb).2) ∧
    (tb.hasShares = true →
      (∃ r ∈ tb.rows, ∃ q, r.shares = some q ∧ q ≤ 0) →
      (validate_portfolio_data tb).1 = false ∧
      ValidationError.nonPositive "Shares" ∈ (validate_portfolio_data tb).2) ∧
    (tb.hasAvg = true →
      (∃ r ∈ tb.rows, ∃ q, r.avgCost = some q ∧ q ≤ 0) →
      (validate_portfolio_data tb).1 = false ∧
      ValidationError.nonPositive "AvgCostJPY" ∈ (validate_portfolio_data tb).2) ∧
    (tb.hasTicker = true →
      ¬(tb.rows.map (fun r => r.ticker)).Nodup →
      (validate_portfolio_data tb).1 = false ∧
      ∃ l, ValidationError.duplicateTickers l ∈ (validate_portfolio_data tb).2) := by
  have hdup : ¬(tb.rows.map (fun r => r.ticker)).Nodup →
      (dupsOf tb).isEmpty = false := by
    intro hnd
    cases hD : dupsOf tb with
    | nil =>
      exact absurd (dupsAfterFirst_nil_iff _ [] hD).1 hnd
    | cons a l => rfl
  refine ⟨?_, ?_, ?_, ?_⟩
  · intro he
    unfold validate_portfolio_data
    simp [he]
  · intro hcol hex
    have hne : tb.rows ≠ [] := by
      obtain ⟨r, hr, _⟩ := hex
      exact List.ne_nil_of_mem hr
    have hany := anyNonPos_of_witness PRow.shares tb.rows hex
    unfold validate_portfolio_data
    simp only [List.isEmpty_iff, hne, if_false, hcol, hany, Bool.and_self,
      if_true]
    constructor
    · simp [List.isEmpty_iff]
    · simp
  · intro hcol hex
    have hne : tb.rows ≠ [] := by
      obtain ⟨r, hr, _⟩ := hex
      exact List.ne_nil_of_mem hr
    have hany := anyNonPos_of_witness PRow.avgCost tb.rows hex
    unfold validate_portfolio_data
    simp only [List.isEmpty_iff, hne, if_false, hcol, hany, Bool.and_self,
      if_true]
    constructor
    · simp [List.isEmpty_iff]
    · simp
  · intro hcol hnd
    have hne : tb.rows ≠ [] := by
      intro he
      apply hnd
      rw [he]
      exact List.nodup_nil
    have hd := hdup hnd
    unfold validate_portfolio_data
    simp only [List.isEmpty_iff, hne, if_false, hcol, hd, Bool.not_false,
      Bool.and_self, if_true]
    constructor
    · simp [List.isEmpty_iff]
    · exact ⟨dupsOf tb, by simp⟩

/-- C5 witness: a single-column-flagged table with a non-positive share
count; the theorem's Shares clause applied at that table. -/
theorem C5_validate_witness :
    (validate_portfolio_data
      { hasTicker := true, hasShares := true, hasAvg := true,
        rows := [{ ticker := "AAPL", shares := some (-10), avgCost := some 5 }] }).1
      = false ∧
    ValidationError.nonPositive "Shares" ∈
      (validate_portfolio_data
        { hasTicker := true, hasShares := true, hasAvg := true,
          rows := [{ ticker := "AAPL", shares := some (-10), avgCost := some 5 }] }).2 :=
  (C5_validate_portfolio_data _).2.1 rfl
    ⟨{ ticker := "AAPL", shares := some (-10), avgCost := some 5 },
      by simp, -10, rfl, by norm_num⟩

/-! ## Cleaning (`clean_portfolio_data`, data_loader.py lines 101-131) -/

/-- A raw cell before numeric coercion: a number, a value that fails
coercion (`pd.to_numeric(errors="coerce")` turns it into NaN), or an
already-missing value. -/
inductive RawCell where
  | num (q : ℚ)
  | bad
  | missing
deriving DecidableEq

/-- Python `pd.to_numeric(x, errors="coerce")` per cell. -/
def toNumericCell : RawCell → Option ℚ
  | RawCell.num q => some q
  | RawCell.bad => none
  | RawCell.missing => none

structure RawRow where
  ticker : String
  shares : RawCell
  avgCost : RawCell

structure CleanRow where
  ticker : String
  shares : Option ℚ
  avgCost : Option ℚ
deriving DecidableEq

/-- Step 1 of the cleaning: trim/uppercase the ticker, coerce numerics. -/
def normalizeRow (r : RawRow) : CleanRow :=
  { ticker := pyUpper (pyStrip r.ticker),
    shares := toNumericCell r.shares,
    avgCost := toNumericCell r.avgCost }

/-- Steps 1-2: normalize every row, then drop rows with any missing value
(`dropna`). -/
def droppedRows (rows : List RawRow) : List CleanRow :=
  (rows.map normalizeRow).filter (fun r => r.shares.isSome && r.avgCost.isSome)

/-- Pandas `drop_duplicates(subset=["Ticker"], keep="first")`. -/
def dedupByTicker (seen : List String) : List CleanRow → List CleanRow
  | [] => []
  | r :: rs =>
    if r.ticker ∈ seen then dedupByTicker seen rs
    else r :: dedupByTicker (r.ticker :: seen) rs

/-- Embedding of `clean_portfolio_data` (data_loader.py lines 101-131).
The final `reset_index` only renumbers rows and has no content. -/
def clean_portfolio_data (rows : List RawRow) : List CleanRow :=
  dedupByTicker [] (droppedRows rows)

theorem mem_of_mem_dedup {r : CleanRow} {seen : List String}
    {l : List CleanRow} (h : r ∈ dedupByTicker seen l) : r ∈ l := by
  induction l generalizing seen with
  | nil => simp [dedupByTicker] at h
  | cons x xs ih =>
    unfold dedupByTicker at h
    by_cases hx : x.ticker ∈ seen
    · rw [if_pos hx] at h
      exact List.mem_cons_of_mem _ (ih h)
    · rw [if_neg hx] at h
      rcases List.mem_cons.mp h with rfl | h2
      · exact List.mem_cons_self _ _
      · exact List.mem_cons_of_mem _ (ih h2)

theorem ticker_not_seen_of_mem_dedup {r : CleanRow} {seen : List String}
    {l : List CleanRow} (h : r ∈ dedupByTicker seen l) : r.ticker ∉ seen := by
  induction l generalizing seen with
  | nil => simp [dedupByTicker] at h
  | cons x xs ih =>
    unfold dedupByTicker at h
    by_cases hx : x.ticker ∈ seen
    · rw [if_pos hx] at h
      exact ih h
    · rw [if_neg hx] at h
      rcases List.mem_cons.mp h with rfl | h2
      · exact hx
      · intro hs
        exact (ih h2) (List.mem_cons_of_mem _ hs)

theorem nodup_dedup_tickers (seen : List String) (l : List CleanRow) :
    ((dedupByTicker seen l).map (fun r => r.ticker)).Nodup := by
  induction l generalizing seen with
  | nil => simp [dedupByTicker]
  | cons x xs ih =>
    unfold dedupByTicker
    by_cases hx : x.ticker ∈ seen
    · rw [if_pos hx]
      exact ih seen
    · rw [if_neg hx]
      simp only [List.map_cons, List.nodup_cons]
      refine ⟨?_, ih (x.ticker :: seen)⟩
      intro hmem
      obtain ⟨r, hr, hteq⟩ := List.mem_map.mp hmem
      have := ticker_not_seen_of_mem_dedup hr
      rw [hteq] at this
      exact this (List.mem_cons_self _ _)

theorem dedup_keeps_first {r : CleanRow} {seen : List String}
    {l : List CleanRow} (h : r ∈ dedupByTicker seen l) :
    l.find? (fun x => x.ticker == r.ticker) = some r := by
  induction l generalizing seen with
  | nil => simp [dedupByTicker] at h
  | cons x xs ih =>
    unfold dedupByTicker at h
    by_cases hx : x.ticker ∈ seen
    · rw [if_pos hx] at h
      have hne : x.ticker ≠ r.ticker := by
        intro he
        exact (ticker_not_seen_of_mem_dedup h) (he ▸ hx)
      have hb : (x.ticker == r.ticker) = false := by simp [hne]
      rw [List.find?_cons, hb]
      exact ih h
    · rw [if_neg hx] at h
      rcases List.mem_cons.mp h with rfl | h2
      · rw [List.find?_cons]
        simp
      · have hnot := ticker_not_seen_of_mem_dedup h2
        have hne : x.ticker ≠ r.ticker := by
          intro he
          exact hnot (he ▸ List.mem_cons_self _ _)
        have hb : (x.ticker == r.ticker) = false := by simp [hne]
        rw [List.find?_cons, hb]
        exact ih h2

/-- C8: the cleaned table has no missing value in any column, has no
duplicate ticker (the row kept for each ticker is the first matching row
of the normalized, null-dropped table), and every ticker in it carries no
lowercase ASCII letter and no leading or trailing whitespace. -/
theorem C8_clean_portfolio_data (rows : List RawRow) :
    (∀ r ∈ clean_portfolio_data rows,
      r.shares.isSome = true ∧ r.avgCost.isSome = true) ∧
    ((clean_portfolio_data rows).map (fun r => r.ticker)).Nodup ∧
    (∀ r ∈ clean_portfolio_data rows,
      (∀ c ∈ r.ticker.data, lowerAscii c = false) ∧
      stripL r.ticker.data = r.ticker.data) ∧
    (∀ r ∈ clean_portfolio_data rows,
      (droppedRows rows).find? (fun x => x.ticker == r.ticker) = some r) := by
  refine ⟨?_, nodup_dedup_tickers [] _, ?_, fun r hr => dedup_keeps_first hr⟩
  · intro r hr
    have h2 := mem_of_mem_dedup hr
    have := List.of_mem_filter h2
    simpa using this
  · intro r hr
    have h2 := mem_of_mem_dedup hr
    have h3 : r ∈ rows.map normalizeRow := List.mem_of_mem_filter h2
    obtain ⟨r0, _, heq⟩ := List.mem_map.mp h3
    have hticker : r.ticker.data =
        (stripL r0.ticker.data).map Char.toUpper := by
      rw [← heq]
      rfl
    constructor
    · intro c hc
      rw [hticker] at hc
      obtain ⟨c0, _, hceq⟩ := List.mem_map.mp hc
      rw [← hceq]
      exact toUpper_not_lowerAscii c0
    · rw [hticker, stripL_map_toUpper, stripL_stripL]

/-! ## Risk calculator (`src/modules/risk_calculator.py`)

Return series are `List ℚ` (exact rationals for float arithmetic; input
series carry no NaN, so the pandas NaN guards reduce to emptiness
checks).  A returns DataFrame is a rectangular list of equal-length
columns.  Square roots live in `ℝ`.  The one place a NaN is *produced*
rather than consumed — the ddof-1 standard deviation of a single
observation inside `calculate_volatility` — is modelled explicitly with
`Option` (`none` = NaN) via `sampleVarNaN`. -/

/-- Python `mean` of a list (unreachable on `[]` behind the code's guards). -/
def pyMean (l : List ℚ) : ℚ := l.sum / (l.length : ℚ)

/-- Pandas sample covariance of two equal-length columns (`ddof = 1`).
Total rational division gives 0 on fewer than two observations where
pandas gives NaN; every use below either sits behind a guard that
excludes that point (positive volatility for C3), coincides with the
code's observable there (the ratio-1 else-branch for C6), or models the
NaN explicitly via `sampleVarNaN` (`calculate_volatility` for C4). -/
def sampleCov (xs ys : List ℚ) : ℚ :=
  (List.zipWith (fun a b => (a - pyMean xs) * (b - pyMean ys)) xs ys).sum /
    ((xs.length : ℚ) - 1)

/-- Pandas sample variance (`Series.std` squared, `ddof = 1`). -/
def sampleVar (xs : List ℚ) : ℚ := sampleCov xs xs

/-- One entry of `np.dot(cov_matrix, weights)`. -/
def covRowDot (cols : List (List ℚ)) (ci : List ℚ) (w : List ℚ) : ℚ :=
  (List.zipWith (fun cj wj => sampleCov ci cj * wj) cols w).sum

/-- The vector `np.dot(cov_matrix, weights)`. -/
def covTimesW (cols : List (List ℚ)) (w : List ℚ) : List ℚ :=
  cols.map (fun ci => covRowDot cols ci w)

/-- The scalar `np.dot(weights.T, np.dot(cov_matrix, weights))`. -/
def portfolioVarianceQ (cols : List (List ℚ)) (w : List ℚ) : ℚ :=
  (List.zipWith (fun wi x => wi * x) w (covTimesW cols w)).sum

/-- Daily portfolio volatility, `np.sqrt` of the variance. -/
noncomputable def portfolioVolatility (cols : List (List ℚ)) (w : List ℚ) : ℝ :=
  Real.sqrt ((portfolioVarianceQ cols w : ℚ) : ℝ)

/-- Pandas `Series.std()` squared with its NaN point kept: the ddof-1
sample variance is NaN (`none`) on fewer than two observations. -/
def sampleVarNaN (xs : List ℚ) : Option ℚ :=
  if xs.length ≤ 1 then none else some (sampleVar xs)

/-- Embedding of `calculate_volatility` (risk_calculator.py lines 14-37):
`none` is NaN.  An empty (or all-NaN) series returns 0.0 via the guard;
otherwise the result is `returns.std()` — NaN on a single observation —
times √252 when annualizing (a NaN factor keeps the product NaN). -/
noncomputable def calculate_volatility (returns : List ℚ) (annualize : Bool) :
    Option ℝ :=
  if returns.isEmpty then some 0
  else (sampleVarNaN returns).map (fun v =>
    Real.sqrt ((v : ℚ) : ℝ) * (if annualize then Real.sqrt 252 else 1))

/-! ### VaR / CVaR (`calculate_var_cvar`, risk_calculator.py lines 99-136) -/

/-- Ascending sort, as `np.percentile` performs internally. -/
def pySorted (l : List ℚ) : List ℚ := l.mergeSort (fun a b => decide (a ≤ b))

/-- Embedding of `np.percentile(l, q)` with the default linear
interpolation: virtual position q/100·(n−1) between the two neighbouring
order statistics. -/
def npPercentile (l : List ℚ) (q : ℚ) : ℚ :=
  let s := pySorted l
  let pos : ℚ := q / 100 * ((s.length : ℚ) - 1)
  let i : ℕ := (⌊pos⌋).toNat
  let lo := s.getD i 0
  let hi := s.getD (i + 1) lo
  lo + (pos - (i : ℚ)) * (hi - lo)

/-- One confidence level's (VaR, CVaR) pair: VaR is the (1−c)·100
percentile; CVaR is the mean of the observations at or below VaR, or VaR
itself when that set is empty. -/
def varCvarAt (returns : List ℚ) (confidence : ℚ) : ℚ × ℚ :=
  let var := npPercentile returns ((1 - confidence) * 100)
  let tail := returns.filter (fun x => decide (x ≤ var))
  let cvar := if tail.isEmpty then var else pyMean tail
  (var, cvar)

/-- Embedding of `calculate_var_cvar` (risk_calculator.py lines 99-136):
empty input gives no result, otherwise one (VaR, CVaR) pair per requested
confidence level. -/
def calculate_var_cvar (portfolio_returns : List ℚ)
    (confidence_levels : List ℚ) : List (ℚ × ℚ) :=
  if portfolio_returns.isEmpty then []
  else confidence_levels.map (varCvarAt portfolio_returns)

theorem pyMean_le_of_forall_le (l : List ℚ) (b : ℚ) (hne : l ≠ [])
    (h : ∀ x ∈ l, x ≤ b) : pyMean l ≤ b := by
  unfold pyMean
  have hlen : 0 < (l.length : ℚ) := by
    have : 0 < l.length := List.length_pos.mpr hne
    exact_mod_cast this
  rw [div_le_iff₀ hlen]
  calc l.sum ≤ (l.length : ℚ) * b := by
        have := List.sum_le_card_nsmul l b (by simpa using h)
        simpa [nsmul_eq_mul] using this
    _ = b * (l.length : ℚ) := by ring

theorem sorted_pySorted (l : List ℚ) :
    (pySorted l).Pairwise (fun a b => a ≤ b) := by
  have h := @List.sorted_mergeSort ℚ (fun a b : ℚ => decide (a ≤ b))
    (fun a b c hab hbc => by
      simp only [decide_eq_true_eq] at *
      exact le_trans hab hbc)
    (fun a b => by
      simp only [Bool.or_eq_true, decide_eq_true_eq]
      exact le_total a b)
    l
  exact h.imp (fun h => by simpa using h)

theorem exists_mem_le_npPercentile (xs : List ℚ) (q : ℚ) (hne : xs ≠ [])
    (hq0 : 0 ≤ q) (hq1 : q ≤ 100) : ∃ a ∈ xs, a ≤ npPercentile xs q := by
  have hperm : List.Perm (pySorted xs) xs := List.mergeSort_perm xs _
  have hsorted := sorted_pySorted xs
  unfold npPercentile
  simp only []
  set s := pySorted xs with hsdef
  have hlen : s.length = xs.length := hperm.length_eq
  have hn1 : 0 < s.length := by
    rw [hlen]
    exact List.length_pos.mpr hne
  set pos : ℚ := q / 100 * ((s.length : ℚ) - 1) with hposdef
  have hone : (1 : ℚ) ≤ (s.length : ℚ) := by exact_mod_cast hn1
  have hpos0 : 0 ≤ pos := by
    apply mul_nonneg (by positivity)
    linarith
  have hposle : pos ≤ (s.length : ℚ) - 1 := by
    have hq100 : q / 100 ≤ 1 := by linarith [(div_le_one (by norm_num : (0:ℚ) < 100)).mpr hq1]
    calc pos ≤ 1 * ((s.length : ℚ) - 1) := by
          apply mul_le_mul_of_nonneg_right hq100
          linarith
      _ = (s.length : ℚ) - 1 := one_mul _
  have hfloor0 : 0 ≤ ⌊pos⌋ := Int.floor_nonneg.mpr hpos0
  set i : ℕ := (⌊pos⌋).toNat with hidef
  have hcast : (i : ℚ) = ((⌊pos⌋ : ℤ) : ℚ) := by
    rw [hidef]
    exact_mod_cast Int.toNat_of_nonneg hfloor0
  have hik : (i : ℚ) ≤ pos := by
    rw [hcast]
    exact Int.floor_le pos
  have hilt : i < s.length := by
    have h1 : (⌊pos⌋ : ℚ) ≤ (s.length : ℚ) - 1 := le_trans (Int.floor_le pos) hposle
    have h2 : ⌊pos⌋ ≤ (s.length : ℤ) - 1 := by exact_mod_cast h1
    omega
  have hlo : s.getD i 0 = s[i] := by
    rw [List.getD_eq_getElem?_getD, List.getElem?_eq_getElem hilt]
    rfl
  have hmem : s[i] ∈ xs := hperm.subset (List.getElem_mem hilt)
  refine ⟨s[i], hmem, ?_⟩
  rw [hlo]
  have hfrac : 0 ≤ pos - (i : ℚ) := by linarith
  by_cases hi1 : i + 1 < s.length
  · have hhi : s.getD (i + 1) s[i] = s[i + 1] := by
      rw [List.getD_eq_getElem?_getD, List.getElem?_eq_getElem hi1]
      rfl
    rw [hhi]
    have hle : s[i] ≤ s[i + 1] := by
      have hp := List.pairwise_iff_getElem.mp hsorted i (i + 1) hilt hi1 (by omega)
      exact hp
    nlinarith [mul_nonneg hfrac (sub_nonneg.mpr hle)]
  · have hhi : s.getD (i + 1) s[i] = s[i] := by
      rw [List.getD_eq_getElem?_getD]
      rw [List.getElem?_eq_none (by omega)]
      rfl
    rw [hhi]
    simp

theorem npPercentile_all_zero (l : List ℚ) (q : ℚ) (h : ∀ x ∈ l, x = 0) :
    npPercentile l q = 0 := by
  have hz : ∀ x ∈ pySorted l, x = 0 := by
    intro x hx
    exact h x ((List.mergeSort_perm l _).subset hx)
  unfold npPercentile
  simp only []
  have hget : ∀ (j : ℕ) (d : ℚ), d = 0 → (pySorted l).getD j d = 0 := by
    intro j d hd
    rw [List.getD_eq_getElem?_getD]
    cases hg : (pySorted l)[j]? with
    | none => simp [hd]
    | some v =>
      have := hz v (List.getElem?_mem hg)
      simp [this]
  rw [hget _ 0 rfl, hget _ 0 rfl]
  ring

/-- C4 (amended): for a non-empty return series and confidence level in
[0, 1], VaR is exactly the (1−c)·100 empirical percentile, CVaR is
exactly the mean of the observations at or below VaR (that set being
non-empty), and CVaR ≤ VaR; a constant-zero series yields (0, 0) at
every requested level, and `calculate_volatility` returns 0 on a
constant-zero series of at least two observations — a single observation
yields NaN (the ddof-1 standard deviation of one point), not 0. -/
theorem C4_var_cvar_percentile :
    (∀ (xs : List ℚ) (c : ℚ), xs ≠ [] → 0 ≤ c → c ≤ 1 →
      (varCvarAt xs c).1 = npPercentile xs ((1 - c) * 100) ∧
      (varCvarAt xs c).2 =
        pyMean (xs.filter (fun x => decide (x ≤ (varCvarAt xs c).1))) ∧
      (varCvarAt xs c).2 ≤ (varCvarAt xs c).1) ∧
    (∀ (n : ℕ) (b : Bool), 2 ≤ n →
      calculate_volatility (List.replicate n 0) b = some 0) ∧
    (∀ b : Bool, calculate_volatility [(0 : ℚ)] b = none) ∧
    (∀ (n : ℕ) (cs : List ℚ),
      ∀ p ∈ calculate_var_cvar (List.replicate n 0) cs, p = (0, 0)) := by
  refine ⟨?_, ?_, ?_, ?_⟩
  · intro xs c hne hc0 hc1
    have hq0 : 0 ≤ (1 - c) * 100 := by nlinarith
    have hq1 : (1 - c) * 100 ≤ 100 := by nlinarith
    obtain ⟨a, hamem, hale⟩ :=
      exists_mem_le_npPercentile xs ((1 - c) * 100) hne hq0 hq1
    set var := npPercentile xs ((1 - c) * 100) with hvar
    have hatail : a ∈ xs.filter (fun x => decide (x ≤ var)) :=
      List.mem_filter.mpr ⟨hamem, by simpa using hale⟩
    have htne : xs.filter (fun x => decide (x ≤ var)) ≠ [] :=
      List.ne_nil_of_mem hatail
    have hemp : (xs.filter (fun x => decide (x ≤ var))).isEmpty = false := by
      rw [List.isEmpty_eq_false_iff_exists_mem]
      exact ⟨a, hatail⟩
    have hfst : (varCvarAt xs c).1 = var := rfl
    refine ⟨hfst, ?_, ?_⟩
    · show (varCvarAt xs c).2 = _
      unfold varCvarAt
      simp only [hemp, Bool.false_eq_true, if_false]
    · have hsnd : (varCvarAt xs c).2 =
          pyMean (xs.filter (fun x => decide (x ≤ var))) := by
        unfold varCvarAt
        simp only [hemp, Bool.false_eq_true, if_false]
      rw [hsnd, hfst]
      apply pyMean_le_of_forall_le _ _ htne
      intro x hx
      have := List.mem_filter.mp hx
      simpa using this.2
  · intro n b hn
    obtain ⟨m, rfl⟩ : ∃ m, n = m + 2 := ⟨n - 2, by omega⟩
    have hvar : sampleVar (List.replicate (m + 2) (0 : ℚ)) = 0 := by
      unfold sampleVar sampleCov pyMean
      simp
    have hnan : sampleVarNaN (List.replicate (m + 2) (0 : ℚ)) = some 0 := by
      unfold sampleVarNaN
      rw [if_neg (by rw [List.length_replicate]; omega), hvar]
    unfold calculate_volatility
    have hemp : (List.replicate (m + 2) (0 : ℚ)).isEmpty = false := by simp
    rw [hemp, hnan]
    simp
  · intro b
    unfold calculate_volatility sampleVarNaN
    rfl
  · intro n cs p hp
    cases n with
    | zero => simp [calculate_var_cvar] at hp
    | succ m =>
        unfold calculate_var_cvar at hp
        rw [if_neg (by simp)] at hp
        obtain ⟨c, _, hc⟩ := List.mem_map.mp hp
        have hvz : npPercentile (List.replicate (m + 1) (0 : ℚ)) ((1 - c) * 100) = 0 :=
          npPercentile_all_zero _ _ (by simp)
        have htail : (List.replicate (m + 1) (0 : ℚ)).filter
            (fun x => decide (x ≤ npPercentile (List.replicate (m + 1) (0 : ℚ))
              ((1 - c) * 100))) = List.replicate (m + 1) (0 : ℚ) := by
          apply List.filter_eq_self.mpr
          intro x hx
          have hx0 : x = 0 := by simpa using List.eq_of_mem_replicate hx
          simp [hx0, hvz]
        rw [← hc]
        unfold varCvarAt
        simp only [htail, hvz]
        have hmean : pyMean (List.replicate (m + 1) (0 : ℚ)) = 0 := by
          unfold pyMean
          simp
        simp [hmean]

/-- C4 counterexample: the one-observation constant-zero series [0] is
non-empty and all zero, yet `calculate_volatility` returns NaN (the
ddof-1 standard deviation of a single point), not 0. -/
theorem C4_counterexample_singleton_volatility :
    calculate_volatility [(0 : ℚ)] true = none ∧
    (none : Option ℝ) ≠ some 0 := by
  constructor
  · rfl
  · simp

/-- C4 witness: the VaR/CVaR clause instantiated at the series [0, 1]
with confidence 1/2, and the volatility clause at the two-observation
constant-zero series. -/
theorem C4_var_cvar_witness :
    ((varCvarAt [0, 1] (1/2)).1 = npPercentile [0, 1] ((1 - 1/2) * 100) ∧
     (varCvarAt [0, 1] (1/2)).2 =
       pyMean (([0, 1] : List ℚ).filter
         (fun x => decide (x ≤ (varCvarAt [0, 1] (1/2)).1))) ∧
     (varCvarAt [0, 1] (1/2)).2 ≤ (varCvarAt [0, 1] (1/2)).1) ∧
    calculate_volatility (List.replicate 2 (0 : ℚ)) true = some 0 :=
  ⟨C4_var_cvar_percentile.1 [0, 1] (1/2) (by simp) (by norm_num) (by norm_num),
   C4_var_cvar_percentile.2.1 2 true (by norm_num)⟩

/-! ### Risk contribution (`calculate_risk_contribution`,
risk_calculator.py lines 203-251) -/

/-- `np.dot(cov, w)/vol` when volatility is positive, else a zero vector. -/
noncomputable def marginal_risk (cols : List (List ℚ)) (w : List ℚ) : List ℝ :=
  if 0 < portfolioVolatility cols w then
    (covTimesW cols w).map (fun x => ((x : ℚ) : ℝ) / portfolioVolatility cols w)
  else List.replicate w.length 0

/-- `weights * marginal_risk` (elementwise). -/
noncomputable def risk_contribution (cols : List (List ℚ)) (w : List ℚ) : List ℝ :=
  List.zipWith (fun wi m => ((wi : ℚ) : ℝ) * m) w (marginal_risk cols w)

/-- `risk_contribution / variance * 100` when the variance is positive,
else a zero vector. -/
noncomputable def risk_contribution_pct (cols : List (List ℚ)) (w : List ℚ) : List ℝ :=
  if 0 < portfolioVarianceQ cols w then
    (risk_contribution cols w).map
      (fun x => x / ((portfolioVarianceQ cols w : ℚ) : ℝ) * 100)
  else List.replicate w.length 0

structure RiskContributionResult where
  marginal : List ℝ
  contribution : List ℝ
  contributionPct : List ℝ
  volatility : ℝ

/-- Embedding of `calculate_risk_contribution` (risk_calculator.py lines
203-251); empty returns or weights give no result. -/
noncomputable def calculate_risk_contribution (cols : List (List ℚ))
    (w : List ℚ) : Option RiskContributionResult :=
  if cols.isEmpty || cols.any List.isEmpty || w.isEmpty then none
  else some
    { marginal := marginal_risk cols w,
      contribution := risk_contribution cols w,
      contributionPct := risk_contribution_pct cols w,
      volatility := portfolioVolatility cols w }

theorem sum_zipWith_cast_mul_div (w cw : List ℚ) (v : ℝ) :
    (List.zipWith (fun (a b : ℚ) => ((a : ℚ) : ℝ) * (((b : ℚ) : ℝ) / v)) w cw).sum
      = (((List.zipWith (fun (a b : ℚ) => a * b) w cw).sum : ℚ) : ℝ) / v := by
  induction w generalizing cw with
  | nil => simp
  | cons a as ih =>
    cases cw with
    | nil => simp
    | cons b bs =>
      simp only [List.zipWith_cons_cons, List.sum_cons, ih bs]
      push_cast
      ring

theorem sum_map_div_mul (l : List ℝ) (c d : ℝ) :
    (l.map (fun x => x / c * d)).sum = l.sum / c * d := by
  induction l with
  | nil => simp
  | cons a as ih =>
    simp only [List.map_cons, List.sum_cons, ih]
    ring

theorem risk_contribution_sum (cols : List (List ℚ)) (w : List ℚ)
    (hv : 0 < portfolioVolatility cols w) :
    (risk_contribution cols w).sum =
      ((portfolioVarianceQ cols w : ℚ) : ℝ) / portfolioVolatility cols w := by
  unfold risk_contribution marginal_risk
  rw [if_pos hv]
  rw [List.zipWith_map_right]
  have := sum_zipWith_cast_mul_div w (covTimesW cols w) (portfolioVolatility cols w)
  simpa [portfolioVarianceQ] using this

/-- Positivity of the rational variance from positivity of the real
volatility (its square root). -/
theorem variance_pos_of_vol_pos (cols : List (List ℚ)) (w : List ℚ)
    (hv : 0 < portfolioVolatility cols w) : 0 < portfolioVarianceQ cols w := by
  unfold portfolioVolatility at hv
  have := Real.sqrt_pos.mp hv
  exact_mod_cast this

/-- C3 (amended): the marginal-risk, contribution and contribution-
percentage formulas are as the spec states them, but the
contribution-percentage entries sum to 100 ÷ portfolioVolatility — equal
to 100 only when the daily portfolio volatility is 1 — not to 100. -/
theorem C3_risk_contribution_amended (cols : List (List ℚ)) (w : List ℚ)
    (r : RiskContributionResult)
    (hsome : calculate_risk_contribution cols w = some r)
    (hv : 0 < r.volatility) :
    r.volatility = portfolioVolatility cols w ∧
    r.marginal = (covTimesW cols w).map
      (fun x => ((x : ℚ) : ℝ) / portfolioVolatility cols w) ∧
    r.contribution = List.zipWith (fun wi m => ((wi : ℚ) : ℝ) * m) w r.marginal ∧
    r.contributionPct = r.contribution.map
      (fun x => x / ((portfolioVarianceQ cols w : ℚ) : ℝ) * 100) ∧
    r.contributionPct.sum = 100 / r.volatility := by
  unfold calculate_risk_contribution at hsome
  by_cases hguard : (cols.isEmpty || cols.any List.isEmpty || w.isEmpty) = true
  · rw [if_pos hguard] at hsome
    cases hsome
  · rw [if_neg hguard] at hsome
    obtain rfl := (Option.some_inj.mp hsome).symm
    have hvol : 0 < portfolioVolatility cols w := hv
    have hvar : 0 < portfolioVarianceQ cols w :=
      variance_pos_of_vol_pos cols w hvol
    have hvarR : (0 : ℝ) < ((portfolioVarianceQ cols w : ℚ) : ℝ) := by
      exact_mod_cast hvar
    refine ⟨rfl, ?_, ?_, ?_, ?_⟩
    · unfold marginal_risk
      rw [if_pos hvol]
    · unfold risk_contribution
      rfl
    · unfold risk_contribution_pct
      rw [if_pos hvar]
    · unfold risk_contribution_pct
      rw [if_pos hvar, sum_map_div_mul, risk_contribution_sum cols w hvol]
      field_simp
      ring

/-- Helper: the covariance vector of the one-column example. -/
theorem covTimesW_example : covTimesW [[0, 2, 4]] [(1 : ℚ)] = [4] := by
  simp [covTimesW, covRowDot, sampleCov, pyMean]
  norm_num

/-- Helper: the portfolio variance of the one-column example. -/
theorem varianceQ_example : portfolioVarianceQ [[0, 2, 4]] [(1 : ℚ)] = 4 := by
  simp [portfolioVarianceQ, covTimesW_example]

/-- Helper: the portfolio volatility of the one-column example. -/
theorem volatility_example : portfolioVolatility [[0, 2, 4]] [(1 : ℚ)] = 2 := by
  unfold portfolioVolatility
  rw [varianceQ_example]
  rw [show (((4 : ℚ) : ℝ)) = (2 : ℝ) ^ 2 by norm_num]
  exact Real.sqrt_sq (by norm_num)

theorem volatility_example_pos : 0 < portfolioVolatility [[0, 2, 4]] [(1 : ℚ)] := by
  rw [volatility_example]
  norm_num

/-- C3 counterexample: a one-ticker table with returns [0, 2, 4] and
weight 1 has positive portfolio volatility 2, yet its contribution
percentages sum to 50, not 100. -/
theorem C3_counterexample_pct_sum :
    0 < portfolioVolatility [[0, 2, 4]] [(1 : ℚ)] ∧
    (risk_contribution_pct [[0, 2, 4]] [(1 : ℚ)]).sum = 50 ∧
    (50 : ℝ) ≠ 100 := by
  have hvarpos : 0 < portfolioVarianceQ [[0, 2, 4]] [(1 : ℚ)] := by
    rw [varianceQ_example]
    norm_num
  refine ⟨volatility_example_pos, ?_, by norm_num⟩
  unfold risk_contribution_pct risk_contribution marginal_risk
  rw [if_pos hvarpos, if_pos volatility_example_pos, covTimesW_example,
    varianceQ_example, volatility_example]
  norm_num

/-- C3 witness: the amended sum identity instantiated at the concrete
one-ticker example (volatility 2, percentage sum 50 = 100 / 2). -/
theorem C3_risk_contribution_witness :
    (risk_contribution_pct [[0, 2, 4]] [(1 : ℚ)]).sum =
      100 / portfolioVolatility [[0, 2, 4]] [(1 : ℚ)] :=
  (C3_risk_contribution_amended [[0, 2, 4]] [(1 : ℚ)] _ rfl
    volatility_example_pos).2.2.2.2

/-! ### Portfolio risk (`calculate_portfolio_risk`, risk_calculator.py
lines 40-96).  Only the fields the claims mention are carried; the
correlation and covariance matrices the code also returns are untouched
by the diversification-ratio computation. -/

/-- Per-column daily volatilities, `returns.std()`. -/
noncomputable def individualVols (cols : List (List ℚ)) : List ℝ :=
  cols.map (fun c => Real.sqrt ((sampleVar c : ℚ) : ℝ))

/-- `(daily_individual_volatilities * weights).sum()`. -/
noncomputable def weightedAvgVol (cols : List (List ℚ)) (w : List ℚ) : ℝ :=
  (List.zipWith (fun v wi => v * ((wi : ℚ) : ℝ)) (individualVols cols) w).sum

/-- `weighted_avg_vol / portfolio_vol` when the volatility is positive,
else 1. -/
noncomputable def diversification_ratio (cols : List (List ℚ)) (w : List ℚ) : ℝ :=
  if 0 < portfolioVolatility cols w then
    weightedAvgVol cols w / portfolioVolatility cols w
  else 1

structure PortfolioRiskResult where
  portfolio_volatility : ℝ
  weighted_avg_volatility : ℝ
  diversification_ratio : ℝ

/-- Embedding of `calculate_portfolio_risk` (risk_calculator.py lines
40-96); empty returns or weights give no result. -/
noncomputable def calculate_portfolio_risk (cols : List (List ℚ))
    (w : List ℚ) : Option PortfolioRiskResult :=
  if cols.isEmpty || cols.any List.isEmpty || w.isEmpty then none
  else some
    { portfolio_volatility := portfolioVolatility cols w,
      weighted_avg_volatility := weightedAvgVol cols w,
      diversification_ratio := diversification_ratio cols w }

/-- C6: the diversification ratio is the value-weighted average of the
per-ticker daily volatilities divided by the portfolio daily volatility
(whenever the latter is positive), and two tickers with identical return
series at 0.5/0.5 weights always yield a diversification ratio of exactly 1. -/
theorem C6_diversification_ratio :
    (∀ (cols : List (List ℚ)) (w : List ℚ) (r : PortfolioRiskResult),
      calculate_portfolio_risk cols w = some r →
      0 < r.portfolio_volatility →
      r.diversification_ratio =
        r.weighted_avg_volatility / r.portfolio_volatility) ∧
    (∀ (c : List ℚ) (r : PortfolioRiskResult), c ≠ [] →
      calculate_portfolio_risk [c, c] [1/2, 1/2] = some r →
      r.diversification_ratio = 1) := by
  constructor
  · intro cols w r hsome hv
    unfold calculate_portfolio_risk at hsome
    by_cases hguard : (cols.isEmpty || cols.any List.isEmpty || w.isEmpty) = true
    · rw [if_pos hguard] at hsome
      cases hsome
    · rw [if_neg hguard] at hsome
      obtain rfl := (Option.some_inj.mp hsome).symm
      show diversification_ratio cols w = _
      unfold diversification_ratio
      rw [if_pos hv]
  · intro c r hne hsome
    unfold calculate_portfolio_risk at hsome
    rw [if_neg (by simp [hne])] at hsome
    obtain rfl := (Option.some_inj.mp hsome).symm
    show diversification_ratio [c, c] [1/2, 1/2] = 1
    have hvarq : portfolioVarianceQ [c, c] [1/2, 1/2] = sampleVar c := by
      simp [portfolioVarianceQ, covTimesW, covRowDot, sampleVar]
      ring
    have hwavg : weightedAvgVol [c, c] [1/2, 1/2] =
        Real.sqrt ((sampleVar c : ℚ) : ℝ) := by
      simp [weightedAvgVol, individualVols]
      ring
    have hvol : portfolioVolatility [c, c] [1/2, 1/2] =
        Real.sqrt ((sampleVar c : ℚ) : ℝ) := by
      unfold portfolioVolatility
      rw [hvarq]
    unfold diversification_ratio
    rw [hvol, hwavg]
    by_cases h : 0 < Real.sqrt ((sampleVar c : ℚ) : ℝ)
    · rw [if_pos h]
      exact div_self (ne_of_gt h)
    · rw [if_neg h]

/-- C6 witness: the identical-series clause instantiated at the
single-observation series [1]. -/
theorem C6_diversification_witness :
    diversification_ratio [[(1 : ℚ)], [(1 : ℚ)]] [1/2, 1/2] = 1 :=
  C6_diversification_ratio.2 [(1 : ℚ)] _ (by simp) rfl

/-! ## Factor analysis (`src/modules/factor_analysis.py`)

`calculate_rolling_betas` joins the portfolio-return series with the
factor table on date, drops rows with any missing value, and requires at
least `window` aligned rows, otherwise returning an empty frame.  The
per-window regression is the source's `simple_ols_regression`
(normal-equations OLS with an intercept); a singular normal matrix leaves
that window's row unset, as the source's inner `try` does. -/

/-- Generic dictionary lookup (dates are modelled as naturals). -/
def lookupKey {κ α : Type} [BEq κ] (m : List (κ × α)) (k : κ) : Option α :=
  (m.find? (fun p => p.1 == k)).map Prod.snd

/-- One factor-table row; any field can be missing. -/
structure FactorRowOpt where
  mktRF : Option ℚ
  smb : Option ℚ
  hml : Option ℚ
  rmw : Option ℚ
  cma : Option ℚ
  mom : Option ℚ
  rf : Option ℚ

/-- One fully-populated row of the date-aligned join. -/
structure AlignedRow where
  date : ℕ
  portfolio : ℚ
  mktRF : ℚ
  smb : ℚ
  hml : ℚ
  rmw : ℚ
  cma : ℚ
  mom : ℚ
  rf : ℚ

/-- The date-aligned, fully-populated join (`pd.concat(...).dropna()`):
a date survives exactly when it appears in the portfolio series with a
value and in the factor table with every factor present. -/
def alignedRows (pr : List (ℕ × Option ℚ)) (fd : List (ℕ × FactorRowOpt)) :
    List AlignedRow :=
  pr.filterMap (fun e => do
    let p ← e.2
    let f ← lookupKey fd e.1
    let a ← f.mktRF
    let b ← f.smb
    let c ← f.hml
    let d ← f.rmw
    let e2 ← f.cma
    let m ← f.mom
    let r ← f.rf
    pure ⟨e.1, p, a, b, c, d, e2, m, r⟩)

/-- The regression design row: intercept plus the six factors. -/
def designRow (r : AlignedRow) : Fin 7 → ℚ :=
  ![1, r.mktRF, r.smb, r.hml, r.rmw, r.cma, r.mom]

/-- The `simple_ols_regression` betas on one window: solve the normal
equations β = (XᵀX)⁻¹Xᵀy for y the excess portfolio returns; a singular
XᵀX (where `np.linalg.inv` raises and the source leaves the row unset)
gives no value.  Factor betas are entries 1..6 (the intercept is
dropped, as `rolling_betas` drops the `const` column). -/
noncomputable def olsWindowBetas (win : List AlignedRow) : Option (Fin 6 → ℚ) :=
  let n := win.length
  let X : Matrix (Fin n) (Fin 7) ℚ := fun i j => designRow (win.get i) j
  let y : Fin n → ℚ := fun i => (win.get i).portfolio - (win.get i).rf
  let XtX : Matrix (Fin 7) (Fin 7) ℚ := X.transpose * X
  if XtX.det = 0 then none
  else
    let betas := ((XtX.det)⁻¹ • XtX.adjugate).mulVec (X.transpose.mulVec y)
    some (fun j => betas j.succ)

/-- Embedding of `calculate_rolling_betas` (factor_analysis.py lines
1387-1456): fewer aligned rows than the window length gives an empty
result; otherwise one row per trailing window, labelled by the window's
last date. -/
noncomputable def calculate_rolling_betas (pr : List (ℕ × Option ℚ))
    (fd : List (ℕ × FactorRowOpt)) (window : ℕ) :
    List (ℕ × Option (Fin 6 → ℚ)) :=
  let df := alignedRows pr fd
  if df.length < window then []
  else
    (List.range (df.length - (window - 1))).map (fun s =>
      (((df.get? (s + window - 1)).map AlignedRow.date).getD 0,
        olsWindowBetas ((df.drop s).take window)))

/-- C7: with fewer than 21 aligned, fully-populated observations the
rolling-beta computation returns the empty result, and any non-empty
result arises from at least `window` aligned observations, with exactly
one row per full trailing window. -/
theorem C7_rolling_betas_guard :
    (∀ (pr : List (ℕ × Option ℚ)) (fd : List (ℕ × FactorRowOpt)),
      (alignedRows pr fd).length < 21 →
      calculate_rolling_betas pr fd 21 = []) ∧
    (∀ (pr : List (ℕ × Option ℚ)) (fd : List (ℕ × FactorRowOpt)) (w : ℕ),
      ¬(alignedRows pr fd).length < w →
      (calculate_rolling_betas pr fd w).length =
        (alignedRows pr fd).length - (w - 1)) := by
  constructor
  · intro pr fd h
    unfold calculate_rolling_betas
    simp only [h, if_true]
  · intro pr fd w h
    unfold calculate_rolling_betas
    simp only [h, if_false]
    rw [List.length_map, List.length_range]

/-- C7 witness: empty inputs give zero aligned rows, hence an empty
rolling-beta table. -/
theorem C7_rolling_betas_witness :
    calculate_rolling_betas [] [] 21 = [] :=
  C7_rolling_betas_guard.1 [] [] (by simp [alignedRows])

/-- C8 witness: cleaning the single raw row (" aapl ", 10, 5) keeps a
fully-populated row, whose membership instantiates the no-missing-value
clause. -/
theorem C8_clean_witness :
    ({ ticker := "AAPL", shares := some 10, avgCost := some 5 } :
        CleanRow).shares.isSome = true ∧
    ({ ticker := "AAPL", shares := some 10, avgCost := some 5 } :
        CleanRow).avgCost.isSome = true :=
  (C8_clean_portfolio_data
      [{ ticker := " aapl ", shares := RawCell.num 10,
         avgCost := RawCell.num 5 }]).1
    { ticker := "AAPL", shares := some 10, avgCost := some 5 }
    (by
      rw [show clean_portfolio_data
          [{ ticker := " aapl ", shares := RawCell.num 10,
             avgCost := RawCell.num 5 }] =
          [{ ticker := "AAPL", shares := some 10, avgCost := some 5 }] from rfl]
      exact List.mem_singleton.mpr rfl)
